import Mathlib

/-!
Verification of the RocksDB storage adapter for the cita-trie
(`src/src/lib.rs`).

The adapter wraps an opaque durable key-value engine (RocksDB) and exposes
the four-operation capability interface `get` / `insert` / `contains` /
`remove` expected by the trie engine, normalising the engine's
string-typed errors into the single wrapper type `RocksDbError`.

Embedding:
* `Bytes` — arbitrary byte strings (keys and values).
* `Store` — the engine's key-value state, an association list where the
  most recent binding of a key comes first (`rawGet` takes the first
  match, `rawPut` prepends, `rawDelete` drops every binding of the key).
  These model the engine's native `get`/`put`/`delete` on their success
  path; `rocksdb` itself is an external collaborator, treated per the
  spec as an opaque, already-correct store.
* The adapter operations are translated arm by arm from the Rust source.
  `RocksDb.get` and `RocksDb.contains` are functions of the raw engine
  outcome `Except String (Option Bytes)` (the Rust `self.db.get(key)`
  result), so that behaviour on engine I/O failure is expressible; the
  `...At` forms instantiate them with a failure-free engine run over a
  `Store`, and the `...Step` forms inject an optional engine failure and
  return the resulting store state alongside the result.
-/

/-- Byte strings: keys and values are arbitrary byte sequences. -/
abbrev Bytes := List Nat

/-- Engine state: an association list from keys to values, most recent
binding first. -/
abbrev Store := List (Bytes × Bytes)

/-- Engine point lookup (`raw_get`): first binding of the key, if any. -/
def rawGet (s : Store) (k : Bytes) : Option Bytes :=
  match s with
  | [] => none
  | (k', v) :: rest => if k' = k then some v else rawGet rest k

/-- Engine upsert (`raw_put`): bind `k` to `v`, shadowing any prior
binding. -/
def rawPut (s : Store) (k v : Bytes) : Store :=
  (k, v) :: s

/-- Engine delete (`raw_delete`): drop every binding of `k`. -/
def rawDelete (s : Store) (k : Bytes) : Store :=
  match s with
  | [] => []
  | (k', v) :: rest =>
    if k' = k then rawDelete rest k else (k', v) :: rawDelete rest k

/-- Wrapper for RocksDb errors that are all Strings
(`pub struct RocksDbError(pub String)`). -/
structure RocksDbError where
  reason : String
deriving DecidableEq, Repr

/-- Handle to RocksDb: the adapter value, holding the (shared) engine
state.  The `Arc` reference counting is elided; sharing is out of scope
for the claims proved here. -/
structure RocksDb where
  db : Store
deriving DecidableEq, Repr

namespace RocksDb

/-- `RocksDb::new`, as a function of the engine open outcome
(`RDB::open_default(dir)`): on `Ok(db)` it wraps the engine in a handle;
on `Err(reason)` the Rust code panics — the process terminates and no
value (in particular no typed error value) is returned, modelled as
`none`. -/
def new (r : Except String Store) : Option RocksDb :=
  match r with
  | .ok db => some { db := db }
  | .error _ => none

/-- `RocksDb::get`, as a function of the raw engine outcome
`self.db.get(key)`.  Translated arm by arm from the Rust `match`:
`Ok(Some(val))` maps to `Ok(Some(val))`, an engine error is wrapped, and
`Ok(None)` — key absent — is mapped to `Err(RocksDbError("Key not
found"))`. -/
def get (r : Except String (Option Bytes)) :
    Except RocksDbError (Option Bytes) :=
  match r with
  | .ok (some val) => .ok (some val)
  | .error reason => .error ⟨reason⟩
  | .ok none => .error ⟨"Key not found"⟩

/-- `RocksDb::contains`, as a function of the raw engine outcome: it
calls `get` and matches `if let Ok(Some(_))` — true on a present value,
false on every other outcome (absence and engine error alike). -/
def contains (r : Except String (Option Bytes)) :
    Except RocksDbError Bool :=
  match get r with
  | .ok (some _) => .ok true
  | _ => .ok false

/-- `RocksDb::get` run against engine state `s` with the engine
succeeding (its lookup reports the stored value or absence). -/
def getAt (s : Store) (k : Bytes) : Except RocksDbError (Option Bytes) :=
  get (.ok (rawGet s k))

/-- `RocksDb::contains` run against engine state `s` with the engine
succeeding. -/
def containsAt (s : Store) (k : Bytes) : Except RocksDbError Bool :=
  contains (.ok (rawGet s k))

/-- `RocksDb::insert` run against engine state `s` with the engine `put`
succeeding: it returns `Ok(())` and the updated state. -/
def insertAt (s : Store) (k v : Bytes) :
    Except RocksDbError Unit × Store :=
  (.ok (), rawPut s k v)

/-- `RocksDb::remove` run against engine state `s` with the engine
`delete` succeeding: it returns `Ok(())` and the updated state. -/
def removeAt (s : Store) (k : Bytes) :
    Except RocksDbError Unit × Store :=
  (.ok (), rawDelete s k)

/-- `RocksDb::get` as a state transformer, with an optional injected
engine failure `e` (the engine's lookup is read-only, per the spec's
`raw_get` contract: point lookup, no side effects). -/
def getStep (s : Store) (k : Bytes) (e : Option String) :
    Except RocksDbError (Option Bytes) × Store :=
  (get (match e with
        | some msg => .error msg
        | none => .ok (rawGet s k)), s)

/-- `RocksDb::contains` as a state transformer, with an optional injected
engine failure `e`. -/
def containsStep (s : Store) (k : Bytes) (e : Option String) :
    Except RocksDbError Bool × Store :=
  (contains (match e with
             | some msg => .error msg
             | none => .ok (rawGet s k)), s)

/-- Modelled from the spec: `RocksDb::insert` forwards to the engine's
`raw_put`, whose on-disk behaviour is not in this repository; per §4.1
the engine is an opaque, already-correct store, so a failing `put`
leaves the state unchanged and a succeeding one applies the write in
full.  `e` injects an optional engine failure. -/
def insertStep (s : Store) (k v : Bytes) (e : Option String) :
    Except RocksDbError Unit × Store :=
  match e with
  | some msg => (.error ⟨msg⟩, s)
  | none => (.ok (), rawPut s k v)

/-- Modelled from the spec: `RocksDb::remove` forwards to the engine's
`raw_delete`; as for `insertStep`, a failing engine `delete` leaves the
state unchanged and a succeeding one applies in full. -/
def removeStep (s : Store) (k : Bytes) (e : Option String) :
    Except RocksDbError Unit × Store :=
  match e with
  | some msg => (.error ⟨msg⟩, s)
  | none => (.ok (), rawDelete s k)

end RocksDb

/-- Modelled from the spec: the filesystem visible to the Durable Store,
a map from paths to engine states; a path never opened holds the empty
store (`open_or_create` creates an empty store at a fresh path). -/
def FileSystem := String → Store

/-- Modelled from the spec: `open_or_create(path)` — opening an existing
path reconstructs prior state; opening a fresh path finds the empty
store (§4.1). -/
def openOrCreate (fs : FileSystem) (path : String) : Store :=
  fs path

/-- Modelled from the spec: releasing the handle at `path`.  Every
`raw_put`/`raw_delete` is synchronously durable (§4.1), so at release
the on-disk state at `path` is exactly the handle's state `s`; release
itself writes nothing new. -/
def closeHandle (fs : FileSystem) (path : String) (s : Store) :
    FileSystem :=
  fun q => if q = path then s else fs q

/-! ## Basic engine lemmas -/

theorem rawGet_rawPut_self (s : Store) (k v : Bytes) :
    rawGet (rawPut s k v) k = some v := by
  simp [rawGet, rawPut]

theorem rawGet_rawDelete_self (s : Store) (k : Bytes) :
    rawGet (rawDelete s k) k = none := by
  induction s with
  | nil => rfl
  | cons p rest ih =>
    obtain ⟨k', v⟩ := p
    by_cases h : k' = k <;> simp [rawDelete, rawGet, h, ih]

theorem rawDelete_of_absent (s : Store) (k : Bytes)
    (h : rawGet s k = none) : rawDelete s k = s := by
  induction s with
  | nil => rfl
  | cons p rest ih =>
    obtain ⟨k', v⟩ := p
    by_cases hk : k' = k
    · simp [rawGet, hk] at h
    · simp [rawGet, hk] at h
      simp [rawDelete, hk, ih h]

/-! ## Claims -/

/-- C1: the claim says that for a key never inserted (or already removed)
`get(k)` returns `Ok(None)` and never an error.  The code violates this:
on an absent key (here: the empty store and key `[0]`) `RocksDb::get`
returns `Err(RocksDbError("Key not found"))`, not `Ok(None)`. -/
theorem get_absent_returns_error :
    RocksDb.getAt [] [0] = .error ⟨"Key not found"⟩ := rfl

/-- C2: `contains(k)` returns `Ok(true)` iff `get(k)` would return a
present value, returns `Ok(false)` when the key is absent, and never
propagates an absence outcome (or indeed any outcome) as an error. -/
theorem contains_iff_get_present (s : Store) (k : Bytes) :
    (RocksDb.containsAt s k = .ok true ↔
      ∃ v, RocksDb.getAt s k = .ok (some v)) ∧
    (rawGet s k = none → RocksDb.containsAt s k = .ok false) ∧
    (∀ r, ∃ b, RocksDb.contains r = .ok b) := by
  refine ⟨?_, ?_, ?_⟩
  · cases h : rawGet s k <;>
      simp [RocksDb.containsAt, RocksDb.contains, RocksDb.getAt,
        RocksDb.get, h]
  · intro h
    simp [RocksDb.containsAt, RocksDb.contains, RocksDb.getAt,
      RocksDb.get, h]
  · intro r
    match r with
    | .ok (some v) => exact ⟨true, rfl⟩
    | .ok none => exact ⟨false, rfl⟩
    | .error msg => exact ⟨false, rfl⟩

/-- C2 witness: on the empty store, key `[0]` is absent and `contains`
reports a successful `false`. -/
theorem contains_iff_get_present_witness :
    RocksDb.containsAt [] [0] = .ok false :=
  (contains_iff_get_present [] [0]).2.1 rfl

/-- C3: the claim says `contains(k)` returns an `Error` whenever the
engine reports an I/O failure on the lookup.  The code violates this:
`contains` matches `if let Ok(Some(_))` and maps every non-present
outcome — engine failure included — to `Ok(false)`. -/
theorem contains_swallows_engine_failure (msg : String) :
    RocksDb.contains (.error msg) = .ok false := rfl

/-- C4: round-trip — for all states, keys and values, `insert(k, v)`
succeeds and a following `get(k)` returns `Ok(Some(v))` byte-exactly. -/
theorem insert_get_roundtrip (s : Store) (k v : Bytes) :
    (RocksDb.insertAt s k v).1 = .ok () ∧
    RocksDb.getAt (RocksDb.insertAt s k v).2 k = .ok (some v) := by
  refine ⟨rfl, ?_⟩
  simp [RocksDb.getAt, RocksDb.get, RocksDb.insertAt, rawGet_rawPut_self]

/-- C5: overwrite semantics — `insert(k, v1)` then `insert(k, v2)` both
succeed and a following `get(k)` returns `Ok(Some(v2))`: insert always
overwrites the existing value for the same key. -/
theorem insert_overwrites (s : Store) (k v1 v2 : Bytes) :
    (RocksDb.insertAt s k v1).1 = .ok () ∧
    (RocksDb.insertAt (RocksDb.insertAt s k v1).2 k v2).1 = .ok () ∧
    RocksDb.getAt
      (RocksDb.insertAt (RocksDb.insertAt s k v1).2 k v2).2 k =
      .ok (some v2) := by
  refine ⟨rfl, rfl, ?_⟩
  simp [RocksDb.getAt, RocksDb.get, RocksDb.insertAt, rawGet_rawPut_self]

/-- C6: idempotent remove — removing an absent key succeeds with no
effect on the store; removing any key twice succeeds both times; and
after either call `contains(k)` is a successful `false`. -/
theorem remove_idempotent (s : Store) (k : Bytes) :
    (rawGet s k = none → (RocksDb.removeAt s k).2 = s) ∧
    (RocksDb.removeAt s k).1 = .ok () ∧
    (RocksDb.removeAt (RocksDb.removeAt s k).2 k).1 = .ok () ∧
    RocksDb.containsAt (RocksDb.removeAt s k).2 k = .ok false ∧
    RocksDb.containsAt
      (RocksDb.removeAt (RocksDb.removeAt s k).2 k).2 k = .ok false := by
  refine ⟨fun h => rawDelete_of_absent s k h, rfl, rfl, ?_, ?_⟩ <;>
    simp [RocksDb.containsAt, RocksDb.contains, RocksDb.removeAt,
      RocksDb.getAt, RocksDb.get, rawGet_rawDelete_self]

/-- C6 witness: key `[2]` is absent from the one-entry store, so removing
it returns the store unchanged. -/
theorem remove_idempotent_witness :
    (RocksDb.removeAt [([0], [1])] [2]).2 = [([0], [1])] :=
  (remove_idempotent [([0], [1])] [2]).1 (by decide)

/-- C7: construction — `new` wraps a successfully opened engine in a
handle; when the engine cannot be opened it panics (modelled as `none`:
no value, in particular no typed error value, is ever returned to the
caller). -/
theorem new_panics_on_open_failure :
    (∀ reason, RocksDb.new (.error reason) = none) ∧
    (∀ db, RocksDb.new (.ok db) = some { db := db }) :=
  ⟨fun _ => rfl, fun _ => rfl⟩

/-- C8: persistence — a key retrievable with value `v` in the handle
state (inserted and not subsequently removed) is still retrievable with
the byte-identical value after the handle is released and a new handle
is opened at the same filesystem path. -/
theorem durable_across_reopen (fs : FileSystem) (path : String)
    (s : Store) (k v : Bytes)
    (h : RocksDb.getAt s k = .ok (some v)) :
    RocksDb.getAt (openOrCreate (closeHandle fs path s) path) k =
      .ok (some v) := by
  simpa [openOrCreate, closeHandle] using h

/-- C8 witness: a concrete insert survives release and reopen at the
same path. -/
theorem durable_across_reopen_witness :
    RocksDb.getAt
      (openOrCreate
        (closeHandle (fun _ => []) ([7].toString) [([7], [8])])
        ([7].toString)) [7] = .ok (some [8]) :=
  durable_across_reopen (fun _ => []) ([7].toString)
    [([7], [8])] [7] [8] rfl

/-- C9: atomicity — `get` and `contains` never change the store state,
and `insert` and `remove` either fully apply their single engine write
or report the engine's failure with the state unchanged; no partial
write is observable. -/
theorem operations_atomic (s : Store) (k v : Bytes) (e : Option String) :
    (RocksDb.getStep s k e).2 = s ∧
    (RocksDb.containsStep s k e).2 = s ∧
    (RocksDb.insertStep s k v e = (.ok (), rawPut s k v) ∨
      ∃ msg, RocksDb.insertStep s k v e = (.error ⟨msg⟩, s)) ∧
    (RocksDb.removeStep s k e = (.ok (), rawDelete s k) ∨
      ∃ msg, RocksDb.removeStep s k e = (.error ⟨msg⟩, s)) := by
  refine ⟨rfl, rfl, ?_, ?_⟩ <;>
    cases e <;> simp [RocksDb.insertStep, RocksDb.removeStep]

/-- C10: `get` never returns `Ok(None)`: its result is either
`Ok(Some(v))` or an `Err`; in particular an absent key yields
`Err(RocksDbError("Key not found"))`. -/
theorem get_never_ok_none (r : Except String (Option Bytes)) :
    ((∃ v, RocksDb.get r = .ok (some v)) ∨
      (∃ msg, RocksDb.get r = .error msg)) ∧
    (r = .ok none → RocksDb.get r = .error ⟨"Key not found"⟩) ∧
    RocksDb.get r ≠ .ok none := by
  match r with
  | .ok (some v) =>
    exact ⟨.inl ⟨v, rfl⟩, fun h => by simp at h, by simp [RocksDb.get]⟩
  | .ok none =>
    exact ⟨.inr ⟨⟨"Key not found"⟩, rfl⟩, fun _ => rfl,
      by simp [RocksDb.get]⟩
  | .error msg =>
    exact ⟨.inr ⟨⟨msg⟩, rfl⟩, fun h => by simp at h,
      by simp [RocksDb.get]⟩

/-- C10 witness: on the engine reporting absence, `get` returns the
"Key not found" error. -/
theorem get_never_ok_none_witness :
    RocksDb.get (.ok none) = .error ⟨"Key not found"⟩ :=
  (get_never_ok_none (.ok none)).2.1 rfl
